import Mathlib

/-!
Verification of the conversation-memory core of a chatbot script
(file 02-chatbot-memory/chatbot.py): token counting, context-window
trimming, conversation statistics, and the rollback performed after a
failed model call.

Modelling choices:

* A chat message is a Python dict with exactly the keys "role" and
  "content", both strings; it is embedded as the structure `Message`.
* The tiktoken encoder is external.  It is modelled by an abstract
  parameter `enc : Option (String → Nat)`: `some encode` means the
  encoder is available and `encode s` stands for
  `len(encoding.encode(s))`; `none` means `tiktoken.get_encoding`
  raised and the heuristic fallback path runs.
* Constants `MAX_CONTEXT_TOKENS = 4000` and `MAX_RESPONSE_TOKENS = 500`
  are the module-level configuration values.
-/

/-- One chat message: the dict `\x7b"role": r, "content": c\x7d`. -/
structure Message where
  role : String
  content : String
deriving DecidableEq

/-- Module constant `MAX_CONTEXT_TOKENS = 4000`. -/
def MAX_CONTEXT_TOKENS : Nat := 4000

/-- Module constant `MAX_RESPONSE_TOKENS = 500`. -/
def MAX_RESPONSE_TOKENS : Nat := 500

/-- Embedding of `count_tokens(messages)`.

With an encoder (`enc = some encode`, the non-exception path) each
message contributes `4` overhead tokens plus the encoded length of each
of its two dict values (`role` and `content`), and `2` priming tokens
are added once at the end.

Without an encoder (`enc = none`, the `except` path) the result is
`sum(len(m.get("content", "")) // 4 for m in messages)`. -/
def count_tokens (enc : Option (String → Nat)) (messages : List Message) : Nat :=
  match enc with
  | none => (messages.map (fun m => m.content.length / 4)).sum
  | some encode =>
      (messages.map (fun m => 4 + encode m.role + encode m.content)).sum + 2

/-- The `while` loop of `trim_conversation_history`, with the element at
index 0 (`m0`, the system message) held apart and the remainder of the
conversation as the recursion argument.  While more than one message
remains, the loop breaks if `count_tokens(conversation) +
MAX_RESPONSE_TOKENS <= max_tokens`, otherwise `conversation.pop(1)`
removes the oldest non-system message and the loop repeats. -/
def trimAux (enc : Option (String → Nat)) (max_tokens : Nat) (m0 : Message) :
    List Message → List Message
  | [] => [m0]
  | m1 :: rest =>
      if count_tokens enc (m0 :: m1 :: rest) + MAX_RESPONSE_TOKENS ≤ max_tokens then
        m0 :: m1 :: rest
      else
        trimAux enc max_tokens m0 rest

/-- Embedding of `trim_conversation_history(conversation, max_tokens)`. -/
def trim_conversation_history (enc : Option (String → Nat))
    (conversation : List Message) (max_tokens : Nat) : List Message :=
  match conversation with
  | [] => []
  | m0 :: rest => trimAux enc max_tokens m0 rest

/-- Embedding of `display_conversation_stats(conversation)` as the
triple of numbers it prints: `message_count = len(conversation) - 1`,
`token_count = count_tokens(conversation)`, and the available-tokens
line `MAX_CONTEXT_TOKENS - token_count`.  Integer subtraction is used,
as in Python. -/
def display_conversation_stats (enc : Option (String → Nat))
    (conversation : List Message) : Int × Nat × Int :=
  let token_count := count_tokens enc conversation
  let message_count : Int := (conversation.length : Int) - 1
  (message_count, token_count, (MAX_CONTEXT_TOKENS : Int) - (token_count : Int))

/-- The dict `\x7b"role": "user", "content": user_input\x7d` appended at the
start of a turn in `chat()`. -/
def userMessage (user_input : String) : Message :=
  ⟨"user", user_input⟩

/-- One failed turn of `chat()`: the user message is appended, the
conversation is trimmed against `MAX_CONTEXT_TOKENS`, the model call
raises, and the `except` branch runs `conversation.pop()`, removing the
last element (embedded as `List.dropLast`). -/
def failed_turn (enc : Option (String → Nat)) (conversation : List Message)
    (user_input : String) : List Message :=
  (trim_conversation_history enc (conversation ++ [userMessage user_input])
      MAX_CONTEXT_TOKENS).dropLast

/-- Fuel-bounded variant of the trimming loop: `trim_bounded_aux enc max
m0 n rest` runs at most `n` check-and-pop iterations and stops early
exactly where the while loop of `trimAux` does. -/
def trim_bounded_aux (enc : Option (String → Nat)) (max_tokens : Nat)
    (m0 : Message) : Nat → List Message → List Message
  | _, [] => [m0]
  | 0, rest => m0 :: rest
  | n + 1, m1 :: rest =>
      if count_tokens enc (m0 :: m1 :: rest) + MAX_RESPONSE_TOKENS ≤ max_tokens then
        m0 :: m1 :: rest
      else
        trim_bounded_aux enc max_tokens m0 n rest

/-- Appending one message never decreases the count, separately on each
encoder path. -/
theorem count_tokens_le_append (enc : Option (String → Nat)) (S : List Message)
    (e : Message) : count_tokens enc S ≤ count_tokens enc (S ++ [e]) := by
  cases enc <;> simp [count_tokens]

/-- The count of the head message alone is a lower bound for the count
of any conversation starting with it. -/
theorem count_tokens_single_le (enc : Option (String → Nat)) (m0 : Message)
    (l : List Message) : count_tokens enc [m0] ≤ count_tokens enc (m0 :: l) := by
  cases enc <;> simp [count_tokens]

/-- The trimming loop only ever removes a front segment of the history:
its result is the head message followed by some tail of the rest. -/
theorem trimAux_shape (enc : Option (String → Nat)) (max_tokens : Nat)
    (m0 : Message) (rest : List Message) :
    ∃ k, trimAux enc max_tokens m0 rest = m0 :: rest.drop k := by
  induction rest with
  | nil => exact ⟨0, rfl⟩
  | cons m1 rest ih =>
      by_cases h : count_tokens enc (m0 :: m1 :: rest) + MAX_RESPONSE_TOKENS ≤ max_tokens
      · exact ⟨0, by simp [trimAux, h]⟩
      · obtain ⟨k, hk⟩ := ih
        exact ⟨k + 1, by simp [trimAux, h, hk]⟩

/-- With enough fuel, the fuel-bounded loop equals the unbounded one. -/
theorem trim_bounded_aux_enough (enc : Option (String → Nat)) (max_tokens : Nat)
    (sys : Message) :
    ∀ (rest : List Message) (n : Nat), rest.length ≤ n →
      trim_bounded_aux enc max_tokens sys n rest = trimAux enc max_tokens sys rest := by
  intro rest
  induction rest with
  | nil => intro n _; cases n <;> rfl
  | cons m1 rest ih =>
      intro n hn
      cases n with
      | zero => simp at hn
      | succ n =>
          by_cases h : count_tokens enc (sys :: m1 :: rest) + MAX_RESPONSE_TOKENS ≤ max_tokens
          · simp [trim_bounded_aux, trimAux, h]
          · simp only [trim_bounded_aux, trimAux, if_neg h]
            exact ih n (by simpa using hn)

/-- C1 counterexample: with the system entry alone already over the
budget (here via an available encoder that prices every string at 10000
tokens), `trim_conversation_history` returns normally with the system
entry only, yet the resulting count still exceeds the effective limit
`MAX_CONTEXT_TOKENS - MAX_RESPONSE_TOKENS`.  So a normal return does
not guarantee the budget is met. -/
theorem C1_counterexample :
    ¬ (count_tokens (some (fun _ => 10000))
          (trim_conversation_history (some (fun _ => 10000))
            [⟨"system", "x"⟩, ⟨"user", "u"⟩] MAX_CONTEXT_TOKENS)
        + MAX_RESPONSE_TOKENS ≤ MAX_CONTEXT_TOKENS) := by decide

/-- C1 (amended): after `trim_conversation_history(conversation,
max_tokens)` the resulting count plus `MAX_RESPONSE_TOKENS` is within
`max_tokens`, unless only the system entry remains (result length at
most 1), in which case the budget may still be exceeded. -/
theorem C1_trim_meets_budget_unless_system_only (enc : Option (String → Nat))
    (conversation : List Message) (max_tokens : Nat) :
    count_tokens enc (trim_conversation_history enc conversation max_tokens)
        + MAX_RESPONSE_TOKENS ≤ max_tokens
    ∨ (trim_conversation_history enc conversation max_tokens).length ≤ 1 := by
  match conversation with
  | [] => right; simp [trim_conversation_history]
  | m0 :: rest =>
      simp only [trim_conversation_history]
      induction rest with
      | nil => right; simp [trimAux]
      | cons m1 rest ih =>
          by_cases h : count_tokens enc (m0 :: m1 :: rest) + MAX_RESPONSE_TOKENS ≤ max_tokens
          · left; simp [trimAux, h]
          · simpa [trimAux, h] using ih

/-- C2 counterexample: with the system entry alone over the effective
limit, `trim_conversation_history` does not fail and does not leave the
history unchanged: it destructively removes the user entry. -/
theorem C2_counterexample :
    MAX_CONTEXT_TOKENS
        < count_tokens (some (fun _ => 3000)) [⟨"system", "p"⟩] + MAX_RESPONSE_TOKENS
    ∧ trim_conversation_history (some (fun _ => 3000))
        [⟨"system", "p"⟩, ⟨"user", "q"⟩] MAX_CONTEXT_TOKENS
      ≠ [⟨"system", "p"⟩, ⟨"user", "q"⟩] := by decide

/-- C2 (amended): when the system entry alone exceeds the effective
limit, `trim_conversation_history` raises no error; it destructively
removes every history entry and returns the system entry alone. -/
theorem C2_unsatisfiable_budget_empties_history (enc : Option (String → Nat))
    (sys : Message) (rest : List Message) (max_tokens : Nat)
    (h : max_tokens < count_tokens enc [sys] + MAX_RESPONSE_TOKENS) :
    trim_conversation_history enc (sys :: rest) max_tokens = [sys] := by
  simp only [trim_conversation_history]
  induction rest with
  | nil => rfl
  | cons m1 rest ih =>
      have hgt : ¬ (count_tokens enc (sys :: m1 :: rest) + MAX_RESPONSE_TOKENS
          ≤ max_tokens) := by
        have := count_tokens_single_le enc sys (m1 :: rest)
        omega
      simp [trimAux, hgt, ih]

/-- Witness for the amended C2 at a concrete conversation and budget. -/
theorem C2_unsatisfiable_budget_empties_history_witness :
    MAX_CONTEXT_TOKENS
        < count_tokens (some (fun _ => 2000)) [⟨"system", "s"⟩] + MAX_RESPONSE_TOKENS
    ∧ trim_conversation_history (some (fun _ => 2000))
        [⟨"system", "s"⟩, ⟨"user", "u"⟩] MAX_CONTEXT_TOKENS = [⟨"system", "s"⟩] :=
  ⟨by decide,
    C2_unsatisfiable_budget_empties_history (some (fun _ => 2000)) ⟨"system", "s"⟩
      [⟨"user", "u"⟩] MAX_CONTEXT_TOKENS (by decide)⟩

/-- C3 counterexample: a failed turn does not restore the conversation
that preceded the user message.  With an encoder pricing every string
at 1800 tokens, trimming evicts the freshly appended user message, so
the subsequent `conversation.pop()` removes the system entry instead
and the result is empty rather than the original conversation. -/
theorem C3_counterexample :
    failed_turn (some (fun _ => 1800)) [⟨"system", "s"⟩] "q"
      ≠ [(⟨"system", "s"⟩ : Message)] := by decide

/-- C3 (amended): the rollback `conversation.pop()` restores the
pre-turn conversation exactly when the trimming step removed nothing;
in general the post-failure conversation is the trimmed conversation
with its last element removed. -/
theorem C3_rollback_exact_when_trim_removes_nothing (enc : Option (String → Nat))
    (conversation : List Message) (user_input : String)
    (h : trim_conversation_history enc (conversation ++ [userMessage user_input])
          MAX_CONTEXT_TOKENS = conversation ++ [userMessage user_input]) :
    failed_turn enc conversation user_input = conversation := by
  simp [failed_turn, h]

/-- Witness for the amended C3 at a concrete conversation and input. -/
theorem C3_rollback_exact_when_trim_removes_nothing_witness :
    trim_conversation_history none ([⟨"system", "s"⟩] ++ [userMessage "hi"])
        MAX_CONTEXT_TOKENS = [⟨"system", "s"⟩] ++ [userMessage "hi"]
    ∧ failed_turn none [⟨"system", "s"⟩] "hi" = [⟨"system", "s"⟩] :=
  ⟨by decide,
    C3_rollback_exact_when_trim_removes_nothing none [⟨"system", "s"⟩] "hi" (by decide)⟩

/-- C4: the rollback pops the final element regardless of its role.
With an encoder pricing a string at 100 tokens per character, the
30-character user message pushes the count past the limit; trimming
evicts the earlier user and assistant entries and then the new user
message itself, leaving only the system entry, and the rollback after
the failed call pops the system entry, leaving the conversation empty. -/
theorem C4_failed_turn_can_pop_system_entry :
    trim_conversation_history (some (fun s => 100 * s.length))
        ([⟨"system", "s"⟩, ⟨"user", "u"⟩, ⟨"assistant", "a"⟩]
          ++ [userMessage "xxxxxxxxxxxxxxxxxxxxxxxxxxxxxx"]) MAX_CONTEXT_TOKENS
      = [⟨"system", "s"⟩]
    ∧ failed_turn (some (fun s => 100 * s.length))
        [⟨"system", "s"⟩, ⟨"user", "u"⟩, ⟨"assistant", "a"⟩]
        "xxxxxxxxxxxxxxxxxxxxxxxxxxxxxx" = [] := by decide

/-- C5: for any finite sequence of trimming calls (any budgets), the
system entry is untouched and stays first in the conversation sent to
the model. -/
theorem C5_system_entry_permanent (enc : Option (String → Nat)) (sys : Message)
    (rest : List Message) (budgets : List Nat) :
    ∃ tail,
      List.foldl (fun c b => trim_conversation_history enc c b) (sys :: rest) budgets
        = sys :: tail := by
  induction budgets generalizing rest with
  | nil => exact ⟨rest, rfl⟩
  | cons b bs ih =>
      obtain ⟨k, hk⟩ := trimAux_shape enc b sys rest
      simpa [trim_conversation_history, hk] using ih (rest.drop k)

/-- C6 counterexample: on the empty-content system entry the printed
available-token figure is `MAX_CONTEXT_TOKENS - token_count = 4000`,
not `effective_limit - token_count = 3500`: the reserved response
tokens are not subtracted. -/
theorem C6_counterexample :
    (display_conversation_stats none [⟨"system", ""⟩]).2.2
      ≠ ((MAX_CONTEXT_TOKENS : Int) - (MAX_RESPONSE_TOKENS : Int))
          - ((display_conversation_stats none [⟨"system", ""⟩]).2.1 : Int) := by decide

/-- C6 (amended): for a conversation with a system entry and `hist`
history entries, the stats report `message_count = |hist|`, the token
count of the whole conversation, and an available-token figure of
`MAX_CONTEXT_TOKENS - token_count` (the reserved response tokens are
not subtracted). -/
theorem C6_stats_fields (enc : Option (String → Nat)) (sys : Message)
    (hist : List Message) :
    (display_conversation_stats enc (sys :: hist)).1 = (hist.length : Int)
    ∧ (display_conversation_stats enc (sys :: hist)).2.1
        = count_tokens enc (sys :: hist)
    ∧ (display_conversation_stats enc (sys :: hist)).2.2
        = (MAX_CONTEXT_TOKENS : Int) - (count_tokens enc (sys :: hist) : Int) := by
  refine ⟨?_, rfl, rfl⟩
  simp [display_conversation_stats]

/-- C7 counterexample: on the fallback path the non-empty content "hi"
(two characters) costs `2 / 4 = 0` tokens, so appending the entry does
not strictly increase the count. -/
theorem C7_counterexample :
    (Message.mk "user" "hi").content ≠ ""
    ∧ ¬ (count_tokens none []
          < count_tokens none ([] ++ [Message.mk "user" "hi"])) := by decide

/-- C7 (amended): the fallback counter charges `len(content) // 4`
tokens per entry, which is zero for non-empty content shorter than four
characters; appending an entry strictly increases the fallback count
exactly when the content has at least four characters. -/
theorem C7_fallback_positive_for_long_content (S : List Message) (e : Message)
    (h : 4 ≤ e.content.length) :
    count_tokens none S < count_tokens none (S ++ [e]) := by
  simp [count_tokens]
  omega

/-- Witness for the amended C7 at a concrete entry. -/
theorem C7_fallback_positive_for_long_content_witness :
    4 ≤ (Message.mk "user" "abcd").content.length
    ∧ count_tokens none [] < count_tokens none ([] ++ [Message.mk "user" "abcd"]) :=
  ⟨by decide, C7_fallback_positive_for_long_content [] (Message.mk "user" "abcd") (by decide)⟩

/-- C8: token counting is monotonic on both paths: appending an entry
never decreases the count, whether an encoder is available or the
heuristic fallback is in use. -/
theorem C8_count_tokens_monotone (enc : Option (String → Nat)) (S : List Message)
    (e : Message) : count_tokens enc S ≤ count_tokens enc (S ++ [e]) := by
  cases enc <;> simp [count_tokens]

/-- C9: trimming removes only from the front of the history: the result
is the system entry followed by a suffix `rest.drop k` of the original
history, so all surviving entries keep their relative order. -/
theorem C9_trim_removes_front_keeps_order (enc : Option (String → Nat))
    (sys : Message) (rest : List Message) (max_tokens : Nat) :
    ∃ k, trim_conversation_history enc (sys :: rest) max_tokens
        = sys :: rest.drop k :=
  trimAux_shape enc max_tokens sys rest

/-- C10: the eviction loop needs at most `|rest|` removals: running the
loop with fuel `rest.length` already reaches the final result, and the
number of removed entries, measured by the length difference, is at
most `rest.length`. -/
theorem C10_trim_terminates_within_history_length (enc : Option (String → Nat))
    (sys : Message) (rest : List Message) (max_tokens : Nat) :
    trim_conversation_history enc (sys :: rest) max_tokens
        = trim_bounded_aux enc max_tokens sys rest.length rest
    ∧ (sys :: rest).length
          - (trim_conversation_history enc (sys :: rest) max_tokens).length
        ≤ rest.length := by
  constructor
  · exact (trim_bounded_aux_enough enc max_tokens sys rest rest.length le_rfl).symm
  · obtain ⟨k, hk⟩ := trimAux_shape enc max_tokens sys rest
    simp only [trim_conversation_history, hk, List.length_cons, List.length_drop]
    omega
